import Mathlib

/-!
Shallow embedding of the attendance-tracking and notification logic of the
school-attendance-magic repository, together with proofs settling the frozen
claims about it.

Conventions used throughout:
* machine numbers are `Nat`/`Int`/`ℚ` (the JavaScript arithmetic involved here
  is exact on the ranges that occur; where a floating-point comparison could in
  principle differ from the rational one, a comment justifies why it cannot);
* calendar dates are modelled as `Nat` day indexes: ISO-8601 date strings
  compare lexicographically in chronological order, so the store's date
  ordering and range queries are order-isomorphic to `Nat` comparisons;
* rows fetched from the backing store keep their snake_case column names;
  a JavaScript property access on such a row is modelled by an association-list
  lookup, so that an access to a key the row does not carry evaluates to
  `none` (JavaScript `undefined`), exactly as in the source.
-/

/-- The `status` column of `attendance_records` (enum in the schema). -/
inductive AttStatus
  | present
  | absent
  | late
  | excused
deriving DecidableEq, Repr

/-! ## 30-day trend evaluation (src/src/lib/attendanceSupabase.ts, checkAttendanceTrends) -/

/-- Per-student summary produced by `checkAttendanceTrends`
    (the fields of the pushed `AttendanceSummary` object that carry data,
    identity fields are handled by the caller below). -/
structure TrendSummary where
  absenceRate : ℚ
  consecutiveAbsences : Nat
  present : Nat
  absent : Nat
  late : Nat
  excused : Nat
  total : Nat
  needsAttention : Bool
deriving DecidableEq, Repr

/-- One iteration of the consecutive-absence loop of `checkAttendanceTrends`:
    `consecutiveAbsences++` and `maxConsecutiveAbsences = Math.max(...)` on an
    absent record, reset to `0` otherwise.  The pair is
    `(consecutiveAbsences, maxConsecutiveAbsences)`. -/
def consecStep (p : Nat × Nat) (s : AttStatus) : Nat × Nat :=
  if s = AttStatus.absent then (p.1 + 1, max p.2 (p.1 + 1)) else (0, p.2)

/-- The whole loop over `sortedRecords` (most-recent-first), starting from
    `consecutiveAbsences = 0`, `maxConsecutiveAbsences = 0`. -/
def consecScan (l : List AttStatus) : Nat × Nat :=
  l.foldl consecStep (0, 0)

/-- `maxConsecutiveAbsences` as computed by `checkAttendanceTrends`. -/
def maxConsecutiveAbsences (l : List AttStatus) : Nat :=
  (consecScan l).2

/-- The per-student body of `checkAttendanceTrends`, applied to the student's
    30-day window of records ordered most-recent-first (the source re-sorts the
    fetched list by date descending; the fetch already orders it that way, so
    the list seen by the loop is the argument list).  Only the `status` field
    of a record is consulted, so the argument is the list of statuses. -/
def checkStudentTrend (records : List AttStatus) : TrendSummary :=
  let totalRecords := records.length
  let absences := (records.filter (fun r => r == AttStatus.absent)).length
  let absenceRate : ℚ :=
    if totalRecords > 0 then ((absences : ℚ) / (totalRecords : ℚ)) * 100 else 0
  let maxConsec := maxConsecutiveAbsences records
  -- `shouldNotify` is set by two successive `if`s in the source
  let n0 : Bool := false
  let n1 : Bool := if 3 ≤ maxConsec then true else n0
  let n2 : Bool := if 20 < absenceRate ∧ 5 ≤ totalRecords then true else n1
  { absenceRate := absenceRate
    consecutiveAbsences := maxConsec
    present := (records.filter (fun r => r == AttStatus.present)).length
    absent := absences
    late := (records.filter (fun r => r == AttStatus.late)).length
    excused := (records.filter (fun r => r == AttStatus.excused)).length
    total := totalRecords
    needsAttention := n2 }

/-! ### Reference function for the longest absent run, and its relation to the scan -/

/-- Reference recursion: `maxRunFrom l cur` is the value of
    `maxConsecutiveAbsences` that the loop would produce when entered with a
    current streak of `cur` and a running maximum of `cur`. -/
def maxRunFrom : List AttStatus → Nat → Nat
  | [], cur => cur
  | s :: rest, cur =>
      if s = AttStatus.absent then maxRunFrom rest (cur + 1)
      else max cur (maxRunFrom rest 0)

theorem le_maxRunFrom : ∀ (l : List AttStatus) (cur : Nat), cur ≤ maxRunFrom l cur := by
  intro l
  induction l with
  | nil => intro cur; simp [maxRunFrom]
  | cons s rest ih =>
      intro cur
      by_cases hs : s = AttStatus.absent
      · simpa [maxRunFrom, hs] using le_trans (Nat.le_succ cur) (ih (cur + 1))
      · simp [maxRunFrom, hs]

theorem consecScan_eq_maxRunFrom :
    ∀ (l : List AttStatus) (cur mx : Nat), cur ≤ mx →
      (l.foldl consecStep (cur, mx)).2 = max mx (maxRunFrom l cur) := by
  intro l
  induction l with
  | nil => intro cur mx h; simp [maxRunFrom, Nat.max_eq_left h]
  | cons s rest ih =>
      intro cur mx h
      by_cases hs : s = AttStatus.absent
      · have hstep : consecStep (cur, mx) s = (cur + 1, max mx (cur + 1)) := by
          simp [consecStep, hs]
        have h1 : cur + 1 ≤ max mx (cur + 1) := le_max_right _ _
        rw [List.foldl_cons, hstep, ih (cur + 1) (max mx (cur + 1)) h1]
        have h2 : cur + 1 ≤ maxRunFrom rest (cur + 1) := le_maxRunFrom _ _
        rw [maxRunFrom]
        simp only [if_pos hs]
        rw [max_assoc]
        congr 1
        exact Nat.max_eq_right h2
      · have hstep : consecStep (cur, mx) s = (0, mx) := by
          simp [consecStep, hs]
        rw [List.foldl_cons, hstep, ih 0 mx (Nat.zero_le mx), maxRunFrom]
        simp only [if_neg hs]
        rw [← max_assoc, Nat.max_eq_left h]

/-- Existence half: `maxRunFrom l cur` is realised either by an all-absent
    prefix of `l` continuing the entering streak `cur`, or by an all-absent
    contiguous segment strictly inside `l`. -/
theorem maxRunFrom_realised :
    ∀ (l : List AttStatus) (cur : Nat),
      (∃ mid post, mid ++ post = l ∧ (∀ s ∈ mid, s = AttStatus.absent) ∧
          maxRunFrom l cur = cur + mid.length) ∨
      (∃ pre mid post, pre ++ mid ++ post = l ∧ (∀ s ∈ mid, s = AttStatus.absent) ∧
          maxRunFrom l cur = mid.length) := by
  intro l
  induction l with
  | nil =>
      intro cur
      exact Or.inl ⟨[], [], rfl, by simp, by simp [maxRunFrom]⟩
  | cons s rest ih =>
      intro cur
      by_cases hs : s = AttStatus.absent
      · rcases ih (cur + 1) with ⟨mid, post, hsplit, habs, hval⟩ | ⟨pre, mid, post, hsplit, habs, hval⟩
        · refine Or.inl ⟨s :: mid, post, by simp [hsplit], ?_, ?_⟩
          · intro x hx
            rcases List.mem_cons.mp hx with h | h
            · exact h ▸ hs
            · exact habs x h
          · simp [maxRunFrom, hs, hval]
            omega
        · refine Or.inr ⟨s :: pre, mid, post, by simp [hsplit], habs, ?_⟩
          simp [maxRunFrom, hs, hval]
      · rcases Nat.le_total (maxRunFrom rest 0) cur with hle | hle
        · refine Or.inl ⟨[], s :: rest, rfl, by simp, ?_⟩
          simp [maxRunFrom, hs, Nat.max_eq_left hle]
        · rcases ih 0 with ⟨mid, post, hsplit, habs, hval⟩ | ⟨pre, mid, post, hsplit, habs, hval⟩
          · refine Or.inr ⟨[s], mid, post, by simp [hsplit], habs, ?_⟩
            rw [maxRunFrom]
            simp only [if_neg hs]
            rw [Nat.max_eq_right hle, hval]
            omega
          · refine Or.inr ⟨s :: pre, mid, post, by simp [hsplit], habs, ?_⟩
            rw [maxRunFrom]
            simp only [if_neg hs]
            rw [Nat.max_eq_right hle, hval]

/-- All-absent prefixes bound: an all-absent prefix of `l` extends the entering
    streak. -/
theorem maxRunFrom_prefix_bound :
    ∀ (mid post : List AttStatus) (cur : Nat),
      (∀ s ∈ mid, s = AttStatus.absent) →
      cur + mid.length ≤ maxRunFrom (mid ++ post) cur := by
  intro mid
  induction mid with
  | nil => intro post cur _; simpa using le_maxRunFrom post cur
  | cons a mid' ih =>
      intro post cur habs
      have ha : a = AttStatus.absent := habs a (List.mem_cons_self _ _)
      have := ih post (cur + 1) (fun x hx => habs x (List.mem_cons_of_mem _ hx))
      simp only [List.cons_append, maxRunFrom, ha, if_pos rfl]
      calc cur + (a :: mid').length = (cur + 1) + mid'.length := by simp; omega
        _ ≤ maxRunFrom (mid' ++ post) (cur + 1) := this

/-- Upper-bound half: every all-absent contiguous segment of `l` has length at
    most `maxRunFrom l cur`. -/
theorem maxRunFrom_bound :
    ∀ (pre mid post : List AttStatus) (cur : Nat),
      (∀ s ∈ mid, s = AttStatus.absent) →
      mid.length ≤ maxRunFrom (pre ++ mid ++ post) cur := by
  intro pre
  induction pre with
  | nil =>
      intro mid post cur habs
      have := maxRunFrom_prefix_bound mid post cur habs
      simpa using le_trans (Nat.le_add_left _ _) this
  | cons p pre' ih =>
      intro mid post cur habs
      by_cases hp : p = AttStatus.absent
      · simpa [maxRunFrom, hp] using ih mid post (cur + 1) habs
      · have := ih mid post 0 habs
        simp only [List.cons_append, maxRunFrom, hp, if_neg hp]
        exact le_trans this (le_max_right _ _)

/-- C1: for every most-recent-first window of records, the
    `consecutiveAbsences` value computed by `checkAttendanceTrends` is the
    length of the longest unbroken run of absent records anywhere in the list:
    some contiguous all-absent segment realises it, no contiguous all-absent
    segment exceeds it, and on the window
    [absent, absent, present, absent, absent, absent] it equals 3. -/
theorem consecutiveAbsences_is_longest_run (l : List AttStatus) :
    (∃ pre mid post, pre ++ mid ++ post = l ∧ (∀ s ∈ mid, s = AttStatus.absent) ∧
        mid.length = (checkStudentTrend l).consecutiveAbsences) ∧
    (∀ pre mid post, pre ++ mid ++ post = l → (∀ s ∈ mid, s = AttStatus.absent) →
        mid.length ≤ (checkStudentTrend l).consecutiveAbsences) ∧
    (checkStudentTrend [AttStatus.absent, AttStatus.absent, AttStatus.present,
        AttStatus.absent, AttStatus.absent, AttStatus.absent]).consecutiveAbsences = 3 := by
  have hval : (checkStudentTrend l).consecutiveAbsences = maxRunFrom l 0 := by
    show maxConsecutiveAbsences l = maxRunFrom l 0
    unfold maxConsecutiveAbsences consecScan
    rw [consecScan_eq_maxRunFrom l 0 0 (le_refl 0)]
    simp
  refine ⟨?_, ?_, by decide⟩
  · rcases maxRunFrom_realised l 0 with ⟨mid, post, hsplit, habs, hrun⟩ |
      ⟨pre, mid, post, hsplit, habs, hrun⟩
    · exact ⟨[], mid, post, by simpa using hsplit, habs, by rw [hval, hrun]; omega⟩
    · exact ⟨pre, mid, post, hsplit, habs, by rw [hval, hrun]⟩
  · intro pre mid post hsplit habs
    rw [hval, ← hsplit]
    exact maxRunFrom_bound pre mid post 0 habs

/-- Witness for the hypotheses of `consecutiveAbsences_is_longest_run`,
    instantiating the bound at a concrete segment of a concrete window. -/
theorem consecutiveAbsences_is_longest_run_witness :
    [AttStatus.absent, AttStatus.absent].length ≤
      (checkStudentTrend [AttStatus.absent, AttStatus.absent, AttStatus.present,
          AttStatus.absent]).consecutiveAbsences :=
  (consecutiveAbsences_is_longest_run
      [AttStatus.absent, AttStatus.absent, AttStatus.present, AttStatus.absent]).2.1
    [] [AttStatus.absent, AttStatus.absent] [AttStatus.present, AttStatus.absent]
    (by decide) (by decide)

/-- C2: the `needsAttention` flag produced by the trend evaluation holds
    exactly when `consecutiveAbsences >= 3`, or `absenceRate > 20` with at
    least 5 records in the window; `absenceRate` is
    `absentCount / totalRecordsInWindow * 100`, and `0` on an empty window. -/
theorem needsAttention_iff (records : List AttStatus) :
    ((checkStudentTrend records).needsAttention = true ↔
      3 ≤ (checkStudentTrend records).consecutiveAbsences ∨
        (20 < (checkStudentTrend records).absenceRate ∧
          5 ≤ (checkStudentTrend records).total)) ∧
    (checkStudentTrend records).total = records.length ∧
    (checkStudentTrend records).absenceRate =
      (if records.length = 0 then 0 else
        (((records.filter (fun r => r == AttStatus.absent)).length : ℚ) /
          (records.length : ℚ)) * 100) := by
  refine ⟨?_, rfl, ?_⟩
  · simp only [checkStudentTrend]
    split_ifs with h1 h2 <;> simp_all
  · simp only [checkStudentTrend]
    split_ifs with h1 h2 <;> first | rfl | omega

/-! ## Domain records (src/src/lib/types.ts, reconstructed from use sites) -/

/-- The `Student` domain object (camelCase fields mapped from the store rows).
    The source field `class` is a reserved word in Lean and is rendered
    `classLabel`. -/
structure Student where
  id : String
  studentId : String
  firstName : String
  lastName : String
  classLabel : String
  gradeLevel : Int
  email : Option String
  contactPhone : Option String
  deletedAt : Option String
deriving DecidableEq, Repr

/-- The `AttendanceRecord` domain object.  `date` is a day index (ISO date
    strings order lexicographically, isomorphic to `Nat`). -/
structure AttendanceRecord where
  id : String
  studentId : String
  date : Nat
  status : AttStatus
  notes : Option String
deriving DecidableEq, Repr

/-- `ClassSummary` as produced by `getClassSummaries` in
    src/src/lib/attendance.ts (no `presentCount` field in that version). -/
structure ClassSummary where
  className : String
  totalStudents : Nat
  attendanceRate : ℚ
deriving DecidableEq, Repr

/-- First-occurrence deduplication: the key order of a JavaScript object built
    by successive assignments, and the iteration order of `new Set(xs)`. -/
def firstOccurrences {α : Type} [BEq α] (l : List α) : List α :=
  l.foldl (fun acc x => if acc.contains x then acc else acc ++ [x]) []

/-! ## Class summaries (src/src/lib/attendance.ts, getClassSummaries) -/

/-- `getClassSummaries` over the in-memory store: group students by `class`
    label, count present-or-late records of the group over all dates, and
    divide by `students.length * (distinct dates || 1)`. -/
def getClassSummaries (studentsData : List Student)
    (attendanceRecords : List AttendanceRecord) : List ClassSummary :=
  let classNames := firstOccurrences (studentsData.map (fun s => s.classLabel))
  classNames.map (fun className =>
    let students := studentsData.filter (fun s => s.classLabel == className)
    let studentIds := students.map (fun s => s.id)
    let presentCount := (attendanceRecords.filter (fun r =>
        studentIds.contains r.studentId &&
          (r.status == AttStatus.present || r.status == AttStatus.late))).length
    -- `new Set(attendanceRecords.map(r => r.date)).size`
    let distinctDates := (firstOccurrences (attendanceRecords.map (fun r => r.date))).length
    -- `students.length * (… || 1)`: a zero date count is replaced by 1
    let totalPossibleRecords := students.length * (if distinctDates = 0 then 1 else distinctDates)
    let attendanceRate : ℚ :=
      if totalPossibleRecords > 0 then ((presentCount : ℚ) / (totalPossibleRecords : ℚ)) * 100
      else 100
    { className := className, totalStudents := students.length,
      attendanceRate := attendanceRate })

/-- A concrete active student, used as the failing input for C3. -/
def demoStudent : Student :=
  { id := "s1", studentId := "10001", firstName := "John", lastName := "Doe",
    classLabel := "10A", gradeLevel := 10, email := none, contactPhone := none,
    deletedAt := none }

/-- C3 (failing input): with one student in class "10A" and no attendance data
    at all, the computed class attendance rate is 0, not the documented 100:
    the `|| 1` in the denominator makes it `1 * 1 = 1`, never `0`, so the
    100% fallback branch is unreachable for a non-empty class. -/
theorem classSummaries_no_data_rate_is_zero :
    getClassSummaries [demoStudent] [] =
      [{ className := "10A", totalStudents := 1, attendanceRate := 0 }] ∧
    ¬ ((getClassSummaries [demoStudent] []).map (fun c => c.attendanceRate) = [100]) := by
  have h : getClassSummaries [demoStudent] [] =
      [{ className := "10A", totalStudents := 1, attendanceRate := 0 }] := by
    simp only [getClassSummaries, firstOccurrences, demoStudent]
    norm_num
  refine ⟨h, ?_⟩
  rw [h]
  norm_num

/-! ## Store-level aggregations (src/src/lib/attendanceSupabase.ts and supabaseService.ts) -/

/-- Insertion step of a sort by date descending; models the store's
    `ORDER BY date DESC` on the fetched window. -/
def insertByDateDesc (r : AttendanceRecord) : List AttendanceRecord → List AttendanceRecord
  | [] => [r]
  | x :: xs => if x.date ≤ r.date then r :: x :: xs else x :: insertByDateDesc r xs

/-- Sort a record list by date descending. -/
def sortByDateDesc (l : List AttendanceRecord) : List AttendanceRecord :=
  l.foldr insertByDateDesc []

/-- The per-student fetch of `checkAttendanceTrends`: the student's records
    with `fromDate <= date <= today`, ordered by date descending. -/
def fetchStudentWindow (db : List AttendanceRecord) (sid : String)
    (fromDate today : Nat) : List AttendanceRecord :=
  sortByDateDesc (db.filter (fun r =>
    r.studentId == sid && (decide (fromDate ≤ r.date) && decide (r.date ≤ today))))

/-- `checkAttendanceTrends`: filters out soft-deleted students, then pushes one
    summary per remaining student; the pair records which student a summary
    belongs to (the source stores `studentId`/`studentName` inside the pushed
    object). -/
def checkAttendanceTrends (students : List Student) (db : List AttendanceRecord)
    (fromDate today : Nat) : List (String × TrendSummary) :=
  (students.filter (fun s => s.deletedAt == none)).map
    (fun s => (s.id,
      checkStudentTrend ((fetchStudentWindow db s.id fromDate today).map (fun r => r.status))))

/-- `getTotalAbsences` (src/src/lib/attendanceSupabase.ts): count absent
    records of active students only. -/
def getTotalAbsences (students : List Student) (db : List AttendanceRecord) : Nat :=
  let activeStudentIds := (students.filter (fun s => s.deletedAt == none)).map (fun s => s.id)
  if activeStudentIds.length = 0 then 0
  else (db.filter (fun r =>
    r.status == AttStatus.absent && activeStudentIds.contains r.studentId)).length

/-- The value returned by `getAttendanceSummary` in src/src/lib/supabaseService.ts. -/
structure DateSummary where
  date : Nat
  present : Nat
  absent : Nat
  late : Nat
  excused : Nat
  total : Nat
deriving DecidableEq, Repr

/-- `getAttendanceSummary` (src/src/lib/supabaseService.ts): `total` is the
    row count of the whole `students` table — the count query carries no
    `deleted_at` filter — and the four buckets classify every
    `attendance_records` row of the requested date, whoever it belongs to. -/
def getAttendanceSummary (students : List Student) (records : List AttendanceRecord)
    (date : Nat) : DateSummary :=
  let dayRecords := records.filter (fun r => r.date == date)
  { date := date
    present := (dayRecords.filter (fun r => r.status == AttStatus.present)).length
    absent := (dayRecords.filter (fun r => r.status == AttStatus.absent)).length
    late := (dayRecords.filter (fun r => r.status == AttStatus.late)).length
    excused := (dayRecords.filter (fun r => r.status == AttStatus.excused)).length
    total := students.length }

/-- A soft-deleted student and one of their attendance records, the failing
    input for C4. -/
def ghostStudent : Student :=
  { id := "g1", studentId := "900", firstName := "Greta", lastName := "Ghost",
    classLabel := "10A", gradeLevel := 10, email := none, contactPhone := none,
    deletedAt := some "2024-01-01T00:00:00Z" }

/-- An attendance record of `ghostStudent` on day 5. -/
def ghostRecord : AttendanceRecord :=
  { id := "r1", studentId := "g1", date := 5, status := AttStatus.present, notes := none }

/-- C4 (counterexample): a student with non-null `deletedAt` still contributes
    to the per-date attendance summary of `supabaseService.getAttendanceSummary`
    — both to `total` and to the `present` bucket — whereas excluding the
    student entirely would leave every count at 0. -/
theorem attendanceSummary_counts_soft_deleted :
    ghostStudent.deletedAt ≠ none ∧
    (getAttendanceSummary [ghostStudent] [ghostRecord] 5).total = 1 ∧
    (getAttendanceSummary [ghostStudent] [ghostRecord] 5).present = 1 ∧
    (getAttendanceSummary [] [] 5).total = 0 ∧
    (getAttendanceSummary [] [] 5).present = 0 := by
  decide

/-- C4 (amended): soft-deleted students are excluded from the 30-day trend
    evaluation (it produces exactly one row per active student) and from
    `getTotalAbsences` (which only consults active students), but the per-date
    summary of `supabaseService.getAttendanceSummary` applies no `deletedAt`
    filter: its `total` is always the full student list length. -/
theorem soft_deleted_exclusion_amended :
    (∀ (students : List Student) (db : List AttendanceRecord) (fromDate today : Nat),
        (checkAttendanceTrends students db fromDate today).map Prod.fst =
          (students.filter (fun s => s.deletedAt == none)).map (fun s => s.id)) ∧
    (∀ (students : List Student) (db : List AttendanceRecord),
        getTotalAbsences students db =
          getTotalAbsences (students.filter (fun s => s.deletedAt == none)) db) ∧
    (∀ (students : List Student) (records : List AttendanceRecord) (d : Nat),
        (getAttendanceSummary students records d).total = students.length) := by
  refine ⟨?_, ?_, ?_⟩
  · intro students db fromDate today
    simp [checkAttendanceTrends]
  · intro students db
    simp [getTotalAbsences, List.filter_filter]
  · intro students records d
    rfl

/-! ## Attendance upsert (src/src/lib/attendance.ts, recordAttendance) -/

/-- The fields of `recordAttendance`'s argument (`Omit<AttendanceRecord, "id">`). -/
structure AttendanceInput where
  studentId : String
  date : Nat
  status : AttStatus
  notes : Option String
deriving DecidableEq, Repr

/-- The in-memory store of src/src/lib/attendance.ts plus a deterministic
    supply standing in for `crypto.randomUUID()` (no claim depends on the
    generated id values). -/
structure AttState where
  records : List AttendanceRecord
  nextId : Nat
deriving DecidableEq, Repr

/-- The predicate of the source's `findIndex`:
    `r.studentId === record.studentId && r.date === record.date`. -/
def matchesPair (sid : String) (d : Nat) (r : AttendanceRecord) : Bool :=
  r.studentId == sid && r.date == d

/-- The spread `{ ...record, id }`: the input's fields with the given id. -/
def mkAttendanceRecord (rid : String) (input : AttendanceInput) : AttendanceRecord :=
  { id := rid, studentId := input.studentId, date := input.date,
    status := input.status, notes := input.notes }

/-- `findIndex` followed by in-place assignment of `{ ...record, id: old.id }`:
    replaces the first record of the pair, if any, returning the new list and
    the updated record. -/
def updateFirst (input : AttendanceInput) :
    List AttendanceRecord → Option (List AttendanceRecord × AttendanceRecord)
  | [] => none
  | r :: rest =>
      if matchesPair input.studentId input.date r then
        some (mkAttendanceRecord r.id input :: rest, mkAttendanceRecord r.id input)
      else
        match updateFirst input rest with
        | some (rest2, u) => some (r :: rest2, u)
        | none => none

/-- `recordAttendance`: update the existing record of the (studentId, date)
    pair if one exists, otherwise push a new record with a fresh id. -/
def recordAttendance (st : AttState) (input : AttendanceInput) :
    AttState × AttendanceRecord :=
  match updateFirst input st.records with
  | some (recs, u) => ({ records := recs, nextId := st.nextId }, u)
  | none =>
      ({ records := st.records ++ [mkAttendanceRecord ("uuid-" ++ toString st.nextId) input],
         nextId := st.nextId + 1 },
       mkAttendanceRecord ("uuid-" ++ toString st.nextId) input)

/-- The stored records of one (studentId, date) pair. -/
def recordsFor (st : AttState) (sid : String) (d : Nat) : List AttendanceRecord :=
  st.records.filter (matchesPair sid d)

/-- A sequence of `recordAttendance` invocations, applied in order. -/
def applyAll (st : AttState) (invs : List AttendanceInput) : AttState :=
  invs.foldl (fun s i => (recordAttendance s i).1) st


theorem updateFirst_none_iff (input : AttendanceInput) :
    ∀ recs : List AttendanceRecord,
      updateFirst input recs = none ↔
        recs.filter (matchesPair input.studentId input.date) = [] := by
  intro recs
  induction recs with
  | nil => simp [updateFirst]
  | cons r rest ih =>
      by_cases hm : matchesPair input.studentId input.date r
      · rw [updateFirst, if_pos hm, List.filter_cons, if_pos hm]
        simp
      · rw [updateFirst, if_neg hm, List.filter_cons, if_neg hm]
        rcases h : updateFirst input rest with _ | ⟨rest2, u2⟩
        · simp [ih.mp h]
        · constructor
          · intro hc
            simp at hc
          · intro hfil
            have h2 := ih.mpr hfil
            rw [h2] at h
            exact Option.noConfusion h

/-- The updated list of a successful upsert: when at most one stored record
    matched the pair, the new list holds exactly one record for it, carrying
    the input's status and notes under the old id. -/
theorem updateFirst_some_filter (input : AttendanceInput) :
    ∀ (recs recs2 : List AttendanceRecord) (u : AttendanceRecord),
      (recs.filter (matchesPair input.studentId input.date)).length ≤ 1 →
      updateFirst input recs = some (recs2, u) →
      ∃ rid, recs2.filter (matchesPair input.studentId input.date) =
        [mkAttendanceRecord rid input] := by
  intro recs
  induction recs with
  | nil => intro recs2 u _ h; exact Option.noConfusion h
  | cons r rest ih =>
      intro recs2 u hlen hupd
      by_cases hm : matchesPair input.studentId input.date r
      · rw [updateFirst, if_pos hm] at hupd
        injection hupd with hp
        injection hp with h21 h22
        subst h21
        have hrest : rest.filter (matchesPair input.studentId input.date) = [] := by
          rw [List.filter_cons, if_pos hm] at hlen
          simp only [List.length_cons] at hlen
          exact List.eq_nil_of_length_eq_zero (by omega)
        refine ⟨r.id, ?_⟩
        rw [List.filter_cons, if_pos (by simp [mkAttendanceRecord, matchesPair]), hrest]
      · rw [updateFirst, if_neg hm] at hupd
        rcases h : updateFirst input rest with _ | ⟨rest2, u2⟩
        · rw [h] at hupd
          simp at hupd
        · rw [h] at hupd
          injection hupd with hp
          injection hp with h21 h22
          subst h21
          have hlen' : (rest.filter (matchesPair input.studentId input.date)).length ≤ 1 := by
            rw [List.filter_cons, if_neg hm] at hlen
            exact hlen
          rcases ih rest2 u2 hlen' h with ⟨rid, hfil⟩
          refine ⟨rid, ?_⟩
          rw [List.filter_cons, if_neg hm]
          exact hfil

/-- One upsert, state level: under the at-most-one invariant the post-state
    stores exactly one record for the pair, with the input's fields. -/
theorem recordAttendance_pair (st : AttState) (input : AttendanceInput)
    (hinv : (recordsFor st input.studentId input.date).length ≤ 1) :
    ∃ rid, recordsFor (recordAttendance st input).1 input.studentId input.date =
      [mkAttendanceRecord rid input] := by
  rcases h : updateFirst input st.records with _ | ⟨recs, u⟩
  · have hempty : st.records.filter (matchesPair input.studentId input.date) = [] :=
      (updateFirst_none_iff input st.records).mp h
    refine ⟨"uuid-" ++ toString st.nextId, ?_⟩
    unfold recordAttendance
    rw [h]
    show (st.records ++ [mkAttendanceRecord ("uuid-" ++ toString st.nextId) input]).filter
        (matchesPair input.studentId input.date) = _
    rw [List.filter_append, hempty]
    simp [mkAttendanceRecord, matchesPair]
  · rcases updateFirst_some_filter input st.records recs u hinv h with ⟨rid, hfil⟩
    refine ⟨rid, ?_⟩
    unfold recordAttendance
    rw [h]
    exact hfil

/-- C5: from any store satisfying the at-most-one-record-per-pair invariant,
    any non-empty sequence of `recordAttendance` calls for one
    (studentId, date) pair leaves exactly one stored record for the pair, and
    that record carries the status and notes of the last call: a repeated
    upsert never creates a second record. -/
theorem recordAttendance_upsert (sid : String) (d : Nat) :
    ∀ (invs : List AttendanceInput) (last : AttendanceInput) (st : AttState),
      (∀ i ∈ invs ++ [last], i.studentId = sid ∧ i.date = d) →
      (recordsFor st sid d).length ≤ 1 →
      ∃ rid, recordsFor (applyAll st (invs ++ [last])) sid d =
        [{ id := rid, studentId := sid, date := d,
           status := last.status, notes := last.notes }] := by
  intro invs
  induction invs with
  | nil =>
      intro last st hpair hinv
      rcases hpair last (by simp) with ⟨hs, hd⟩
      have hinv' : (recordsFor st last.studentId last.date).length ≤ 1 := by
        rw [hs, hd]; exact hinv
      rcases recordAttendance_pair st last hinv' with ⟨rid, hfil⟩
      refine ⟨rid, ?_⟩
      show recordsFor (recordAttendance st last).1 sid d = _
      rw [← hs, ← hd]
      simpa [mkAttendanceRecord] using hfil
  | cons i invs' ih =>
      intro last st hpair hinv
      rcases hpair i (by simp) with ⟨hs, hd⟩
      have hinv_i : (recordsFor st i.studentId i.date).length ≤ 1 := by
        rw [hs, hd]; exact hinv
      rcases recordAttendance_pair st i hinv_i with ⟨rid0, hfil0⟩
      have hstep : (recordsFor (recordAttendance st i).1 sid d).length ≤ 1 := by
        rw [← hs, ← hd, hfil0]
        simp
      have hpair' : ∀ j ∈ invs' ++ [last], j.studentId = sid ∧ j.date = d := by
        intro j hj
        refine hpair j ?_
        simp only [List.mem_append, List.mem_cons] at hj ⊢
        tauto
      have happ : applyAll st ((i :: invs') ++ [last]) =
          applyAll (recordAttendance st i).1 (invs' ++ [last]) := rfl
      rw [happ]
      exact ih last (recordAttendance st i).1 hpair' hstep

/-- A first concrete upsert for the pair ("s1", 3). -/
def invA : AttendanceInput :=
  { studentId := "s1", date := 3, status := AttStatus.absent, notes := none }

/-- A second concrete upsert for the same pair, with different status and notes. -/
def invB : AttendanceInput :=
  { studentId := "s1", date := 3, status := AttStatus.present, notes := some "arrived late" }

/-- Witness for `recordAttendance_upsert`: two upserts for ("s1", 3) starting
    from the empty store leave one record carrying `invB`'s status and notes. -/
theorem recordAttendance_upsert_witness :
    ∃ rid, recordsFor (applyAll { records := [], nextId := 0 } ([invA] ++ [invB])) "s1" 3 =
      [{ id := rid, studentId := "s1", date := 3,
         status := invB.status, notes := invB.notes }] :=
  recordAttendance_upsert "s1" 3 [invA] invB { records := [], nextId := 0 }
    (by decide) (by decide)

/-! ## Absence-notification dispatch
(supabase/functions/send-absence-notification/index.ts, first version) -/

/-- A row fetched from the `students` table by the edge functions: an
    association list from column names to their (possibly SQL-null) values.
    A JavaScript property access on the row is a lookup, so reading a key the
    row does not carry yields `none` (i.e. `undefined`). -/
def StudentRowObj : Type := List (String × Option String)

/-- Property access `row.key`: `none` = `undefined` (no such column),
    `some none` = SQL `null`, `some (some v)` = value `v`. -/
def getProp (row : StudentRowObj) (key : String) : Option (Option String) :=
  (row.find? (fun p => p.1 == key)).map (fun p => p.2)

/-- JavaScript truthiness of a property value: `undefined`, `null` and the
    empty string are falsy, every other string truthy. -/
def jsTruthy (v : Option (Option String)) : Bool :=
  match v with
  | some (some s) => !(s == "")
  | _ => false

/-- A fetched `students` row with the columns of the schema, in snake_case,
    exactly as the supabase client returns them (the row-to-domain mappers in
    src/src/lib read `student.first_name`, `student.contact_phone`, …). -/
def mkStudentRow (id sid fn ln cls gl : String)
    (email contact_phone deleted_at : Option String) : StudentRowObj :=
  [("id", some id), ("student_id", some sid), ("first_name", some fn),
   ("last_name", some ln), ("class", some cls), ("grade_level", some gl),
   ("email", email), ("contact_phone", contact_phone),
   ("deleted_at", deleted_at)]

/-- Outcome of one dispatch: the response's `success` flag and `channel`. -/
structure DispatchResult where
  success : Bool
  channel : String
deriving DecidableEq, Repr

/-- The channel-selection block of the send-absence-notification handler
    (its first version, the one with an email fallback): `none` models the
    early "Student has no contact information" 400 response.  The guard of the
    SMS branch is the source's `notificationType === "sms" &&
    student.contactPhone`; the row only carries the snake_case column
    `contact_phone`, so this property read yields `undefined`.  Both senders
    are in-source simulations that always report success. -/
def sendAbsenceDispatch (notificationType : String) (student : StudentRowObj) :
    Option DispatchResult :=
  if notificationType == "sms" && jsTruthy (getProp student "contactPhone") then
    -- sendSmsNotification: simulated, always succeeds; channel stays the requested one
    some { success := true, channel := notificationType }
  else if jsTruthy (getProp student "email") then
    -- sendEmailNotification: simulated, always succeeds; channel set to "email"
    some { success := true, channel := "email" }
  else
    none

/-- A student row with both a phone number and an email, the failing input
    for C6. -/
def smsStudentRow : StudentRowObj :=
  mkStudentRow "s9" "10009" "Paul" "Parent" "10A" "10"
    (some "parent@example.mu") (some "52341234") none

/-- C6 (failing input): the row's `contact_phone` column is non-empty, the
    caller requests "sms", and the dispatcher nevertheless answers through
    the email fallback — the phone-based channel is never attempted, because
    the guard reads the non-existent `contactPhone` property of the row. -/
theorem sms_request_with_phone_goes_to_email :
    jsTruthy (getProp smsStudentRow "contact_phone") = true ∧
    jsTruthy (getProp smsStudentRow "contactPhone") = false ∧
    sendAbsenceDispatch "sms" smsStudentRow =
      some { success := true, channel := "email" } := by
  decide

/-- C7: a dispatch requested via "sms" for a student row carrying an email
    address and no phone number does not fail: it falls back to email,
    succeeds, and reports channel "email". -/
theorem sms_request_email_only_falls_back
    (id sid fn ln cls gl : String) (email : String) (phone : Option String)
    (hmail : email ≠ "") (hphone : phone = none ∨ phone = some "") :
    sendAbsenceDispatch "sms" (mkStudentRow id sid fn ln cls gl (some email) phone none) =
      some { success := true, channel := "email" } := by
  have hget : getProp (mkStudentRow id sid fn ln cls gl (some email) phone none)
      "contactPhone" = none := by
    simp [getProp, mkStudentRow, List.find?]
  have hmailget : getProp (mkStudentRow id sid fn ln cls gl (some email) phone none)
      "email" = some (some email) := by
    simp [getProp, mkStudentRow, List.find?]
  unfold sendAbsenceDispatch
  rw [hget, hmailget]
  simp [jsTruthy, hmail]

/-- Witness for `sms_request_email_only_falls_back` at a concrete row. -/
theorem sms_request_email_only_falls_back_witness :
    sendAbsenceDispatch "sms"
        (mkStudentRow "s1" "10001" "Jane" "Doe" "10A" "10"
          (some "jane@example.mu") none none) =
      some { success := true, channel := "email" } :=
  sms_request_email_only_falls_back "s1" "10001" "Jane" "Doe" "10A" "10"
    "jane@example.mu" none (by decide) (Or.inl rfl)

/-! ## Phone normalization (formatMauritianPhoneNumber, both edge functions) -/

/-- `digitsOnly.startsWith("230")`. -/
def startsWith230 : List Char → Bool
  | '2' :: '3' :: '0' :: _ => true
  | _ => false

/-- `formatMauritianPhoneNumber`: empty input is returned as is; otherwise all
    non-digit characters are removed (`replace(/\D/g, "")`), the country code
    230 is prefixed unless the digits already start with it, and a leading `+`
    is prepended. -/
def formatMauritianPhoneNumber (phoneNumber : String) : String :=
  if phoneNumber == "" then ""
  else
    let digitsOnly := phoneNumber.data.filter Char.isDigit
    if startsWith230 digitsOnly then String.mk ('+' :: digitsOnly)
    else String.mk ('+' :: '2' :: '3' :: '0' :: digitsOnly)

theorem filter_isDigit_all (l : List Char) :
    ∀ c ∈ l.filter Char.isDigit, Char.isDigit c = true :=
  fun _ hc => (List.mem_filter.mp hc).2

theorem filter_isDigit_of_all (l : List Char) (h : ∀ c ∈ l, Char.isDigit c = true) :
    l.filter Char.isDigit = l :=
  List.filter_eq_self.mpr h

/-- C8: phone-number normalization is idempotent — applying
    `formatMauritianPhoneNumber` twice yields what one application yields, for
    every input string — and "52341234" normalizes to "+23052341234". -/
theorem formatMauritianPhoneNumber_spec :
    (∀ s : String,
      formatMauritianPhoneNumber (formatMauritianPhoneNumber s) =
        formatMauritianPhoneNumber s) ∧
    formatMauritianPhoneNumber "52341234" = "+23052341234" := by
  constructor
  · intro s
    by_cases h0 : (s == "") = true
    · have h1 : formatMauritianPhoneNumber s = "" := by
        unfold formatMauritianPhoneNumber
        rw [if_pos h0]
      rw [h1]
      decide
    · have hd : ∀ c ∈ s.data.filter Char.isDigit, Char.isDigit c = true :=
        filter_isDigit_all s.data
      by_cases h2 : startsWith230 (s.data.filter Char.isDigit) = true
      · have h1 : formatMauritianPhoneNumber s =
            String.mk ('+' :: s.data.filter Char.isDigit) := by
          unfold formatMauritianPhoneNumber
          rw [if_neg h0, if_pos h2]
        rw [h1]
        have hne : ((String.mk ('+' :: s.data.filter Char.isDigit)) == "") = false := by
          rw [beq_eq_false_iff_ne]
          intro hc
          have := congrArg String.data hc
          simp at this
        have hdig : (String.mk ('+' :: s.data.filter Char.isDigit)).data.filter Char.isDigit
            = s.data.filter Char.isDigit := by
          show ('+' :: s.data.filter Char.isDigit).filter Char.isDigit = _
          rw [List.filter_cons, if_neg (by decide)]
          exact filter_isDigit_of_all _ hd
        unfold formatMauritianPhoneNumber
        rw [if_neg (by simp [hne])]
        simp only [hdig]
        rw [if_pos h2]
      · have h1 : formatMauritianPhoneNumber s =
            String.mk ('+' :: '2' :: '3' :: '0' :: s.data.filter Char.isDigit) := by
          unfold formatMauritianPhoneNumber
          rw [if_neg h0, if_neg h2]
        rw [h1]
        have hne : ((String.mk
            ('+' :: '2' :: '3' :: '0' :: s.data.filter Char.isDigit)) == "") = false := by
          rw [beq_eq_false_iff_ne]
          intro hc
          have := congrArg String.data hc
          simp at this
        have hdig : (String.mk
              ('+' :: '2' :: '3' :: '0' :: s.data.filter Char.isDigit)).data.filter Char.isDigit
            = '2' :: '3' :: '0' :: s.data.filter Char.isDigit := by
          show ('+' :: '2' :: '3' :: '0' :: s.data.filter Char.isDigit).filter Char.isDigit = _
          rw [List.filter_cons, if_neg (by decide), List.filter_cons, if_pos (by decide),
            List.filter_cons, if_pos (by decide), List.filter_cons, if_pos (by decide)]
          rw [filter_isDigit_of_all _ hd]
        unfold formatMauritianPhoneNumber
        rw [if_neg (by simp [hne])]
        simp only [hdig]
        rw [if_pos (by rw [startsWith230])]
  · decide

/-! ## CSV import (src/src/lib/importUtils.ts, parseCSV)

The splitting, trimming and integer-parsing primitives of the source are
re-implemented over `List Char` (structural recursion, so concrete inputs
evaluate) with JavaScript's semantics. -/

/-- `str.split(sep)` for a one-character separator: `""` yields `[""]`,
    adjacent separators yield empty segments. -/
def splitOnChar (sep : Char) : List Char → List (List Char)
  | [] => [[]]
  | c :: rest =>
      let r := splitOnChar sep rest
      if c == sep then [] :: r
      else
        match r with
        | [] => [[c]]
        | l :: ls => (c :: l) :: ls

/-- Remove one carriage return at the end of a line: the source splits on the
    regular expression `/\r\n|\n/`, i.e. on every `\n` together with an
    immediately preceding `\r`. -/
def stripCRChars (l : List Char) : List Char :=
  match l.getLast? with
  | some '\r' => l.dropLast
  | _ => l

/-- `csvContent.split(/\r\n|\n/)`. -/
def splitLinesChars (content : List Char) : List (List Char) :=
  (splitOnChar '\n' content).map stripCRChars

/-- `str.trim()` (JavaScript trims a slightly larger Unicode whitespace class;
    the difference is immaterial for the CSV lines at issue). -/
def trimChars (l : List Char) : List Char :=
  ((l.dropWhile Char.isWhitespace).reverse.dropWhile Char.isWhitespace).reverse

/-- The required header columns of the import format. -/
def requiredHeaders : List (List Char) :=
  ["studentId".data, "firstName".data, "lastName".data, "class".data, "gradeLevel".data]

/-- Value of a decimal digit character, if it is one. -/
def decDigitVal (c : Char) : Option Nat :=
  if c.isDigit then some (c.toNat - '0'.toNat) else none

/-- Value of a hexadecimal digit character, if it is one. -/
def hexDigitVal (c : Char) : Option Nat :=
  if c.isDigit then some (c.toNat - '0'.toNat)
  else if 'a' ≤ c ∧ c ≤ 'f' then some (c.toNat - 'a'.toNat + 10)
  else if 'A' ≤ c ∧ c ≤ 'F' then some (c.toNat - 'A'.toNat + 10)
  else none

/-- Accumulate the longest prefix of digits. -/
def digitsAcc (base : Nat) (dval : Char → Option Nat) : List Char → Nat → Nat
  | [], acc => acc
  | c :: rest, acc =>
      match dval c with
      | some v => digitsAcc base dval rest (acc * base + v)
      | none => acc

/-- Parse the longest non-empty prefix of digits; `none` when there is none. -/
def parseDigits (base : Nat) (dval : Char → Option Nat) (l : List Char) : Option Nat :=
  match l with
  | [] => none
  | c :: rest =>
      match dval c with
      | some v => some (digitsAcc base dval rest v)
      | none => none

/-- JavaScript `parseInt(str)` with `none` for `NaN`: skip leading whitespace,
    take an optional sign, switch to hexadecimal on a `0x`/`0X` prefix, and
    convert the longest prefix of digits. -/
def jsParseInt (s : List Char) : Option Int :=
  let t := s.dropWhile Char.isWhitespace
  let signAndRest : Int × List Char :=
    match t with
    | '-' :: r => (-1, r)
    | '+' :: r => (1, r)
    | r => (1, r)
  let mag : Option Nat :=
    match signAndRest.2 with
    | '0' :: 'x' :: r => parseDigits 16 hexDigitVal r
    | '0' :: 'X' :: r => parseDigits 16 hexDigitVal r
    | r => parseDigits 10 decDigitVal r
  mag.map (fun n => signAndRest.1 * (n : Int))

/-- `parseInt` applied to a possibly-undefined property
    (`parseInt(undefined)` is `NaN`). -/
def jsParseIntOpt (v : Option (List Char)) : Option Int :=
  match v with
  | some s => jsParseInt s
  | none => none

/-- A row accepted by the import: the header-to-value object built by the
    source, the converted `gradeLevel`, and a stand-in for the generated
    `crypto.randomUUID()` (no claim depends on the id values). -/
structure CsvStudent where
  fields : List (List Char × List Char)
  gradeLevel : Int
  rowId : Nat
deriving DecidableEq, Repr

/-- Lookup in the object built by `headers.forEach((h, idx) => student[h] =
    values[idx])`: later assignments overwrite, so the value at the last
    occurrence of the key wins. -/
def lookupLast (pairs : List (List Char × List Char)) (key : List Char) :
    Option (List Char) :=
  (pairs.reverse.find? (fun p => p.1 == key)).map (fun p => p.2)

/-- The required-field loop `for (field of requiredHeaders) if (!student[field])`:
    returns the first required field whose property is `undefined` or `""`
    (both falsy), if any — the source records one error and breaks. -/
def firstMissingRequired (student : List (List Char × List Char)) :
    Option (List Char) :=
  requiredHeaders.find? (fun f =>
    match lookupLast student f with
    | some v => v == []
    | none => true)

/-- Outcome of one data line: skipped (blank), one error message, or one
    accepted student. -/
inductive RowResult
  | skip
  | err (msg : String)
  | ok (s : CsvStudent)
deriving DecidableEq, Repr

/-- The body of the per-line loop of `parseCSV`; `i` is the index of the line
    in the file (the loop runs `i = 1 ..`), messages cite `i + 1`. -/
def processLine (headers : List (List Char)) (i : Nat) (line : List Char) : RowResult :=
  if trimChars line == [] then RowResult.skip
  else
    let values := splitOnChar ',' line
    if values.length != headers.length then
      RowResult.err ("Line " ++ toString (i + 1) ++ ": Incorrect number of fields")
    else
      let student := headers.zip values
      match firstMissingRequired student with
      | some f => RowResult.err ("Line " ++ toString (i + 1) ++ ": Missing " ++ String.mk f)
      | none =>
          match jsParseIntOpt (lookupLast student "gradeLevel".data) with
          | none => RowResult.err ("Line " ++ toString (i + 1) ++ ": gradeLevel must be a number")
          | some n => RowResult.ok { fields := student, gradeLevel := n, rowId := i }

/-- The result object of `parseCSV`. -/
structure ImportResult where
  success : Bool
  message : String
  data : Option (List CsvStudent)
  errors : Option (List String)
deriving DecidableEq, Repr

/-- `lines[0].split(',')`. -/
def headersOf (content : String) : List (List Char) :=
  splitOnChar ',' ((splitLinesChars content.data).headD [])

/-- `requiredHeaders.filter(h => !headers.includes(h))`. -/
def missingHeadersOf (content : String) : List (List Char) :=
  requiredHeaders.filter (fun h => !((headersOf content).contains h))

/-- The outcomes of all data lines, in order. -/
def rowResults (content : String) : List RowResult :=
  ((splitLinesChars content.data).drop 1).enum.map
    (fun p => processLine (headersOf content) (p.1 + 1) p.2)

/-- The accepted students, in order. -/
def validStudents (content : String) : List CsvStudent :=
  (rowResults content).filterMap (fun r =>
    match r with
    | RowResult.ok s => some s
    | _ => none)

/-- The collected per-line error messages, in order. -/
def rowErrors (content : String) : List String :=
  (rowResults content).filterMap (fun r =>
    match r with
    | RowResult.err m => some m
    | _ => none)

/-- `parseCSV`. -/
def parseCSV (csvContent : String) : ImportResult :=
  let lines := splitLinesChars csvContent.data
  if lines.length < 2 then
    { success := false, message := "CSV file is empty or invalid",
      data := none, errors := some ["No data found in the file"] }
  else
    let missingHeaders := missingHeadersOf csvContent
    if missingHeaders.length > 0 then
      { success := false, message := "Missing required headers in CSV file",
        data := none,
        errors := some ["Missing headers: " ++
          String.intercalate ", " (missingHeaders.map String.mk)] }
    else
      let students := validStudents csvContent
      let errors := rowErrors csvContent
      if students.length = 0 then
        { success := false, message := "No valid students found in the CSV file",
          data := none, errors := some errors }
      else
        { success := true,
          message := "Successfully imported " ++ toString students.length ++
            " students with " ++ toString errors.length ++ " errors",
          data := some students,
          errors := if errors.length > 0 then some errors else none }

/-- C9 (counterexample): a file consisting of one header line with no line
    break — its `gradeLevel` column absent — fails with the
    empty-or-invalid-file error, not with the missing-headers error. -/
theorem parseCSV_one_line_missing_header :
    ((headersOf "studentId,firstName,lastName,class").contains "gradeLevel".data) = false ∧
    parseCSV "studentId,firstName,lastName,class" =
      { success := false, message := "CSV file is empty or invalid",
        data := none, errors := some ["No data found in the file"] } := by
  constructor
  · decide
  · decide

/-- C9 (amended): for a file of at least two lines, a missing required header
    (gradeLevel) fails the whole batch with the missing-headers error; with
    complete headers, a non-blank row of the right width whose required fields
    are present but whose gradeLevel does not parse yields exactly one error
    message and no student; and the import succeeds exactly when at least one
    row is valid, the imported data then being precisely the valid rows. -/
theorem parseCSV_spec :
    (∀ content : String, 2 ≤ (splitLinesChars content.data).length →
        ((headersOf content).contains "gradeLevel".data) = false →
        parseCSV content =
          { success := false, message := "Missing required headers in CSV file",
            data := none,
            errors := some ["Missing headers: " ++
              String.intercalate ", " ((missingHeadersOf content).map String.mk)] }) ∧
    (∀ (headers : List (List Char)) (i : Nat) (line : List Char),
        (trimChars line == []) = false →
        (splitOnChar ',' line).length = headers.length →
        firstMissingRequired (headers.zip (splitOnChar ',' line)) = none →
        jsParseIntOpt (lookupLast (headers.zip (splitOnChar ',' line)) "gradeLevel".data) = none →
        processLine headers i line =
          RowResult.err ("Line " ++ toString (i + 1) ++ ": gradeLevel must be a number")) ∧
    (∀ content : String, 2 ≤ (splitLinesChars content.data).length →
        missingHeadersOf content = [] →
        (((parseCSV content).success = true) ↔ validStudents content ≠ []) ∧
        ((parseCSV content).data =
          if validStudents content = [] then none else some (validStudents content))) := by
  refine ⟨?_, ?_, ?_⟩
  · intro content hlen hno
    have hnotlt : ¬ ((splitLinesChars content.data).length < 2) := by omega
    have hmem : "gradeLevel".data ∈ missingHeadersOf content := by
      unfold missingHeadersOf
      refine List.mem_filter.mpr ⟨by decide, by rw [hno]; rfl⟩
    have hpos : 0 < (missingHeadersOf content).length :=
      List.length_pos.mpr (List.ne_nil_of_mem hmem)
    simp only [parseCSV]
    rw [if_neg hnotlt, if_pos hpos]
  · intro headers i line htrim hlen hmiss hparse
    simp only [processLine]
    rw [if_neg (by simp [htrim])]
    have hbne : (((splitOnChar ',' line).length != headers.length) = false) := by
      simp [hlen]
    rw [if_neg (by simp [hbne]), hmiss, hparse]
  · intro content hlen hmiss0
    have hnotlt : ¬ ((splitLinesChars content.data).length < 2) := by omega
    have hmlen : ¬ (0 < (missingHeadersOf content).length) := by simp [hmiss0]
    simp only [parseCSV]
    rw [if_neg hnotlt, if_neg hmlen]
    by_cases hstu : (validStudents content).length = 0
    · rw [if_pos hstu]
      have hnil : validStudents content = [] := List.eq_nil_of_length_eq_zero hstu
      constructor
      · simp
        exact hnil
      · simp [hnil]
    · rw [if_neg hstu]
      have hne : validStudents content ≠ [] := by
        intro hc
        rw [hc] at hstu
        simp at hstu
      constructor
      · simp [hne]
      · simp [hne]

/-- A file whose header line lacks `gradeLevel` but which has a data row. -/
def csvNoGrade : String := "studentId,firstName,lastName,class\nS1,John,Doe,10A"

/-- A complete file with one malformed row (non-numeric grade) and one valid row. -/
def csvMixed : String :=
  "studentId,firstName,lastName,class,gradeLevel\nS1,John,Doe,10A,ten\nS2,Amy,Lee,10A,10"

/-- Witness for `parseCSV_spec` at the two concrete files. -/
theorem parseCSV_spec_witness :
    parseCSV csvNoGrade =
      { success := false, message := "Missing required headers in CSV file",
        data := none,
        errors := some ["Missing headers: " ++
          String.intercalate ", " ((missingHeadersOf csvNoGrade).map String.mk)] } ∧
    processLine (headersOf csvMixed) 1 "S1,John,Doe,10A,ten".data =
      RowResult.err ("Line " ++ toString (1 + 1) ++ ": gradeLevel must be a number") ∧
    ((parseCSV csvMixed).success = true ↔ validStudents csvMixed ≠ []) :=
  ⟨parseCSV_spec.1 csvNoGrade (by decide) (by decide),
   parseCSV_spec.2.1 (headersOf csvMixed) 1 "S1,John,Doe,10A,ten".data
     (by decide) (by decide) (by decide) (by decide),
   (parseCSV_spec.2.2 csvMixed (by decide) (by decide)).1⟩

/-! ## Bulk notification dispatch
(supabase/functions/send-bulk-notifications/index.ts, first version) -/

/-- The `id` column of a fetched row (always present). -/
def rowId (row : StudentRowObj) : String :=
  match getProp row "id" with
  | some (some v) => v
  | _ => ""

/-- One entry of `results.details`: students without contact information get
    `{studentId, success: false, reason}`; dispatched students get an entry
    with the channel actually used (`usedChannel` stays "none" when every
    attempted channel failed). -/
structure BulkDetail where
  studentId : String
  success : Bool
  reason : Option String
  channel : Option String
deriving DecidableEq, Repr

/-- The per-student body of the bulk handler's loop.  `smsSend`/`emailSend`
    give the outcome of the awaited provider calls, whose failures the
    source's try/catch absorbs; the in-source helpers are simulations that
    always succeed, i.e. the constant-true oracles.  As in the
    single-student handler, `canSendSms` reads the non-existent `contactPhone`
    property of the snake_case row. -/
def bulkStudentStep (notificationType : String) (smsSend emailSend : StudentRowObj → Bool)
    (student : StudentRowObj) : BulkDetail :=
  let canSendSms := notificationType == "sms" && jsTruthy (getProp student "contactPhone")
  let canSendEmail := jsTruthy (getProp student "email")
  if !canSendSms && !canSendEmail then
    { studentId := rowId student, success := false,
      reason := some "No contact information", channel := none }
  else
    let outcome : Bool × String :=
      if canSendSms then
        if smsSend student then (true, "sms")
        else if canSendEmail then
          (if emailSend student then (true, "email") else (false, "none"))
        else (false, "none")
      else
        if emailSend student then (true, "email") else (false, "none")
    { studentId := rowId student, success := outcome.1,
      reason := none, channel := some outcome.2 }

/-- The loop over the fetched students: one detail entry is pushed per
    student, in order. -/
def processBulk (notificationType : String) (smsSend emailSend : StudentRowObj → Bool)
    (students : List StudentRowObj) : List BulkDetail :=
  students.map (bulkStudentStep notificationType smsSend emailSend)

/-- The response's top-level flag `success: results.success > 0`:
    `results.success` counts the dispatches that succeeded (no-contact
    students are skipped by `continue` and counted separately, their detail
    entries carrying `success: false`). -/
def bulkResponseSuccess (notificationType : String)
    (smsSend emailSend : StudentRowObj → Bool) (students : List StudentRowObj) : Bool :=
  decide (0 < ((processBulk notificationType smsSend emailSend students).filter
    (fun d => d.success)).length)

/-- C10: the bulk response's top-level success flag is true exactly when at
    least one per-student dispatch succeeded, and every fetched student has
    exactly one detail entry — a batch where every student fails or lacks
    contact information answers success = false with a full detail list. -/
theorem bulk_success_iff_any_dispatch (notificationType : String)
    (smsSend emailSend : StudentRowObj → Bool) (students : List StudentRowObj) :
    (bulkResponseSuccess notificationType smsSend emailSend students = true ↔
      ∃ d ∈ processBulk notificationType smsSend emailSend students, d.success = true) ∧
    (processBulk notificationType smsSend emailSend students).length = students.length := by
  constructor
  · simp only [bulkResponseSuccess, decide_eq_true_eq]
    constructor
    · intro h
      rcases List.exists_mem_of_length_pos h with ⟨d, hd⟩
      rcases List.mem_filter.mp hd with ⟨hmem, hs⟩
      exact ⟨d, hmem, hs⟩
    · rintro ⟨d, hmem, hs⟩
      exact List.length_pos.mpr (List.ne_nil_of_mem (List.mem_filter.mpr ⟨hmem, hs⟩))
  · simp [processBulk]
